/-
Verification of the CV-builder core (cv_builder.py): the pydantic `CV`
schema with its field validators, and the `CVForm.submit` render/convert/
encode pipeline, together with the form lifecycle described by the spec.

Shallow embedding conventions:
  - Python dict entries (`experience`/`education` items) are association
    lists `List (String × String)`; key presence is membership of the key.
  - A candidate record handed to the pydantic model is a structure of
    `Option`-valued fields (`none` = field absent from the input mapping).
  - pydantic validation is embedded as an error-collecting pass over the
    fields in declaration order: a required field that is absent yields a
    "missing" error; a present field runs its `field_validator`, whose
    `ValueError` message becomes a value error for that field.
  - Exceptions are `Except`; bytes are `Nat` (< 256).
-/
import Mathlib

namespace CVBuilder

/-- A dict-valued entry of the `experience` / `education` lists:
an association list of string keys to free-text values. -/
abbrev Entry := List (String × String)

/-- `key in item` for a dict entry. -/
def entryHasKey (item : Entry) (k : String) : Bool :=
  item.any (fun p => p.1 == k)

/-- The required keys of an `experience` entry, in the order they are
written in `validate_experience` (the Python source builds a `set`, whose
iteration order in the error message is unspecified; we fix the written
order). -/
def experienceRequiredKeys : List String :=
  ["job_title", "company_name", "start_date", "end_date", "description"]

/-- The required keys of an `education` entry, in the order they are
written in `validate_education`. -/
def educationRequiredKeys : List String :=
  ["institution_name", "degree", "field_of_study", "start_date", "end_date",
   "description"]

/-- The first entry of the list that does not contain all required keys,
mirroring the `for item in value` loop that raises at the first offender. -/
def firstBadEntry (keys : List String) : List Entry → Option Entry
  | [] => none
  | item :: rest =>
      if keys.all (entryHasKey item) then firstBadEntry keys rest
      else some item

/-- `CV.validate_skills`: raises `ValueError("Skills list cannot be empty")`
on an empty list, otherwise returns the list unchanged. -/
def validate_skills (value : List String) : Except String (List String) :=
  if value.isEmpty then .error "Skills list cannot be empty"
  else .ok value

/-- The `ValueError` message of `validate_experience`: it names the full
required key set, independent of which keys the offending entry misses. -/
def experienceErrorMsg : String :=
  "Each experience entry must contain the following keys: "
    ++ String.intercalate ", " experienceRequiredKeys

/-- The `ValueError` message of `validate_education`. -/
def educationErrorMsg : String :=
  "Each education entry must contain the following keys: "
    ++ String.intercalate ", " educationRequiredKeys

/-- `CV.validate_experience`: raises at the first entry missing any of the
five required keys, with a message naming the whole required key set;
otherwise returns the list unchanged. -/
def validate_experience (value : List Entry) : Except String (List Entry) :=
  match firstBadEntry experienceRequiredKeys value with
  | some _ => .error experienceErrorMsg
  | none => .ok value

/-- `CV.validate_education`: raises at the first entry missing any of the
six required keys, with a message naming the whole required key set;
otherwise returns the list unchanged. -/
def validate_education (value : List Entry) : Except String (List Entry) :=
  match firstBadEntry educationRequiredKeys value with
  | some _ => .error educationErrorMsg
  | none => .ok value

/-- A candidate record as handed to the pydantic model: each field either
absent (`none`) or present with a raw value.  URL fields arrive as strings
to be parsed as `HttpUrl`. -/
structure CVInput where
  full_name : Option String
  email : Option String
  phone_number : Option String
  linkedIn_profile : Option String
  portfolio_website : Option String
  summary : Option String
  skills : Option (List String)
  experience : Option (List Entry)
  education : Option (List Entry)
deriving Repr, DecidableEq

/-- One pydantic validation error for a field. -/
inductive FieldErr where
  /-- a required field is absent from the input mapping -/
  | missing (field : String)
  /-- an `HttpUrl` field is present but does not parse as a URL -/
  | urlInvalid (field : String)
  /-- a `field_validator` raised `ValueError msg` for the field -/
  | valueError (field : String) (msg : String)
deriving Repr, DecidableEq

/-- pydantic `HttpUrl` parse, abstracted: the exact accepted language is
that of pydantic's URL parser; no claim exercises it (both URL fields are
optional and absent in every record the claims construct), so we model the
essential shape: an http(s) scheme followed by a non-empty remainder. -/
def isHttpUrl (s : String) : Bool :=
  ("http://".isPrefixOf s && s.length > 7)
    || ("https://".isPrefixOf s && s.length > 8)

/-- Errors of one required plain-`str` field: pydantic only checks
presence — any string, the empty string included, is a valid `str`. -/
def checkRequiredStr (name : String) (v : Option String) : List FieldErr :=
  match v with
  | none => [.missing name]
  | some _ => []

/-- Errors of one optional `HttpUrl` field. -/
def checkUrl (name : String) (v : Option String) : List FieldErr :=
  match v with
  | none => []
  | some s => if isHttpUrl s then [] else [.urlInvalid name]

/-- Errors of the required `skills` field (runs `validate_skills`). -/
def checkSkills (v : Option (List String)) : List FieldErr :=
  match v with
  | none => [.missing "skills"]
  | some value =>
      match validate_skills value with
      | .error m => [.valueError "skills" m]
      | .ok _ => []

/-- Errors of the required `experience` field (runs `validate_experience`). -/
def checkExperience (v : Option (List Entry)) : List FieldErr :=
  match v with
  | none => [.missing "experience"]
  | some value =>
      match validate_experience value with
      | .error m => [.valueError "experience" m]
      | .ok _ => []

/-- Errors of the required `education` field (runs `validate_education`). -/
def checkEducation (v : Option (List Entry)) : List FieldErr :=
  match v with
  | none => [.missing "education"]
  | some value =>
      match validate_education value with
      | .error m => [.valueError "education" m]
      | .ok _ => []

/-- All validation errors of a candidate record, in field declaration
order, as pydantic collects them (`phone_number` is optional plain text
and contributes no checks). -/
def cvErrors (i : CVInput) : List FieldErr :=
  checkRequiredStr "full_name" i.full_name
    ++ checkRequiredStr "email" i.email
    ++ checkUrl "linkedIn_profile" i.linkedIn_profile
    ++ checkUrl "portfolio_website" i.portfolio_website
    ++ checkRequiredStr "summary" i.summary
    ++ checkSkills i.skills
    ++ checkExperience i.experience
    ++ checkEducation i.education

/-- Validating a candidate record against the `CV` model: success returns
the record (every `field_validator` returns its input unchanged), failure
carries every collected error. -/
def validateCV (i : CVInput) : Except (List FieldErr) CVInput :=
  if (cvErrors i).isEmpty then .ok i else .error (cvErrors i)

/-- Does the candidate record pass validation? -/
def cvAccepts (i : CVInput) : Bool :=
  (cvErrors i).isEmpty

/-- The fully-populated example record of the spec (§8's end-to-end
example, Ada Lovelace). -/
def adaInput : CVInput where
  full_name := some "Ada Lovelace"
  email := some "ada@example.com"
  phone_number := none
  linkedIn_profile := none
  portfolio_website := none
  summary := some "Engineer"
  skills := some ["math"]
  experience := some [[("job_title", "Analyst"), ("company_name", "X"),
    ("start_date", "2020"), ("end_date", "2021"), ("description", "...")]]
  education := some [[("institution_name", "Y"), ("degree", "BSc"),
    ("field_of_study", "Math"), ("start_date", "2016"),
    ("end_date", "2020"), ("description", "...")]]

example : cvAccepts adaInput = true := by decide

/-- An experience entry with every required key except `description`. -/
def entryMissingDescription : Entry :=
  [("job_title", "Analyst"), ("company_name", "X"),
   ("start_date", "2020"), ("end_date", "2021")]

/-- An experience entry with every required key except `job_title`. -/
def entryMissingJobTitle : Entry :=
  [("company_name", "X"), ("start_date", "2020"), ("end_date", "2021"),
   ("description", "...")]

/-- The Ada record with `full_name` and `summary` present but empty. -/
def emptyScalarsInput : CVInput :=
  { adaInput with full_name := some "", summary := some "" }

theorem mem_checkRequiredStr_iff (e : FieldErr) (n : String) (v : Option String) :
    e ∈ checkRequiredStr n v ↔ v = none ∧ e = .missing n := by
  cases v <;> simp [checkRequiredStr]

theorem mem_checkUrl_iff (e : FieldErr) (n : String) (v : Option String) :
    e ∈ checkUrl n v ↔ ∃ s, v = some s ∧ isHttpUrl s = false ∧ e = .urlInvalid n := by
  cases v with
  | none => simp [checkUrl]
  | some s => by_cases h : isHttpUrl s <;> simp [checkUrl, h]

theorem mem_checkSkills_iff (e : FieldErr) (v : Option (List String)) :
    e ∈ checkSkills v ↔
      (v = none ∧ e = .missing "skills")
        ∨ (v = some [] ∧ e = .valueError "skills" "Skills list cannot be empty") := by
  cases v with
  | none => simp [checkSkills]
  | some l => cases l <;> simp [checkSkills, validate_skills]

theorem mem_checkExperience_iff (e : FieldErr) (v : Option (List Entry)) :
    e ∈ checkExperience v ↔
      (v = none ∧ e = .missing "experience")
        ∨ (∃ l, v = some l ∧ firstBadEntry experienceRequiredKeys l ≠ none
              ∧ e = .valueError "experience" experienceErrorMsg) := by
  cases v with
  | none => simp [checkExperience]
  | some l =>
      simp only [checkExperience, validate_experience]
      cases h : firstBadEntry experienceRequiredKeys l <;> simp [h]

theorem mem_checkEducation_iff (e : FieldErr) (v : Option (List Entry)) :
    e ∈ checkEducation v ↔
      (v = none ∧ e = .missing "education")
        ∨ (∃ l, v = some l ∧ firstBadEntry educationRequiredKeys l ≠ none
              ∧ e = .valueError "education" educationErrorMsg) := by
  cases v with
  | none => simp [checkEducation]
  | some l =>
      simp only [checkEducation, validate_education]
      cases h : firstBadEntry educationRequiredKeys l <;> simp [h]

theorem cvAccepts_eq_false_of_mem (i : CVInput) (e : FieldErr)
    (h : e ∈ cvErrors i) : cvAccepts i = false := by
  have hne : cvErrors i ≠ [] := List.ne_nil_of_mem h
  rcases hh : cvErrors i with _ | ⟨a, l⟩
  · exact absurd hh hne
  · simp [cvAccepts, hh]

theorem firstBadEntry_ne_none_of_mem (keys : List String) (v : List Entry)
    (item : Entry) (hmem : item ∈ v)
    (hbad : keys.all (entryHasKey item) = false) :
    firstBadEntry keys v ≠ none := by
  induction v with
  | nil => cases hmem
  | cons hd tl ih =>
      rcases List.mem_cons.mp hmem with h | h
      · subst h
        simp [firstBadEntry, hbad]
      · by_cases hh : keys.all (entryHasKey hd) = true
        · simpa [firstBadEntry, hh] using ih h
        · simp [firstBadEntry, hh]

/-- C1 counterexample: for an entry missing only `description`, the raised
error is the fixed message naming the full required key set — it names
`job_title`, which the entry does possess, and it coincides with the error
raised for a record whose first entry instead misses `job_title` (and which
has a second offending entry that is not separately reported).  So the
error does not name "exactly the missing keys of each offending entry". -/
theorem validate_experience_error_not_missing_keys :
    validate_experience [entryMissingDescription] = .error experienceErrorMsg
    ∧ experienceErrorMsg =
        "Each experience entry must contain the following keys: job_title, company_name, start_date, end_date, description"
    ∧ entryHasKey entryMissingDescription "job_title" = true
    ∧ entryHasKey entryMissingDescription "description" = false
    ∧ validate_experience [entryMissingDescription]
        = validate_experience [entryMissingJobTitle, entryMissingDescription] := by
  refine ⟨rfl, rfl, by decide, by decide, rfl⟩

/-- C1 (amended): an experience/education entry missing any required key
makes the field validator — and hence the record check — fail, with a
`ValueError` raised at the first offending entry whose message lists the
full required key set of that list (not the per-entry missing keys);
further offending entries are not separately reported. -/
theorem incomplete_list_entry_rejected :
    (∀ (v : List Entry) (item : Entry), item ∈ v →
      experienceRequiredKeys.all (entryHasKey item) = false →
      validate_experience v = .error experienceErrorMsg)
    ∧ (∀ (v : List Entry) (item : Entry), item ∈ v →
      educationRequiredKeys.all (entryHasKey item) = false →
      validate_education v = .error educationErrorMsg)
    ∧ (∀ (i : CVInput) (v : List Entry) (item : Entry),
      i.experience = some v → item ∈ v →
      experienceRequiredKeys.all (entryHasKey item) = false →
      cvAccepts i = false
        ∧ FieldErr.valueError "experience" experienceErrorMsg ∈ cvErrors i) := by
  refine ⟨?_, ?_, ?_⟩
  · intro v item hmem hbad
    have h := firstBadEntry_ne_none_of_mem experienceRequiredKeys v item hmem hbad
    rcases hh : firstBadEntry experienceRequiredKeys v with _ | x
    · exact absurd hh h
    · simp [validate_experience, hh]
  · intro v item hmem hbad
    have h := firstBadEntry_ne_none_of_mem educationRequiredKeys v item hmem hbad
    rcases hh : firstBadEntry educationRequiredKeys v with _ | x
    · exact absurd hh h
    · simp [validate_education, hh]
  · intro i v item hv hmem hbad
    have h := firstBadEntry_ne_none_of_mem experienceRequiredKeys v item hmem hbad
    have hmem' : FieldErr.valueError "experience" experienceErrorMsg ∈ cvErrors i := by
      simp only [cvErrors, List.mem_append]
      exact Or.inl (Or.inr ((mem_checkExperience_iff _ _).mpr (Or.inr ⟨v, hv, h, rfl⟩)))
    exact ⟨cvAccepts_eq_false_of_mem i _ hmem', hmem'⟩

theorem incomplete_list_entry_rejected_witness :
    entryMissingDescription ∈ [entryMissingDescription]
    ∧ experienceRequiredKeys.all (entryHasKey entryMissingDescription) = false
    ∧ validate_experience [entryMissingDescription] = .error experienceErrorMsg :=
  ⟨by decide, by decide,
    incomplete_list_entry_rejected.1 [entryMissingDescription]
      entryMissingDescription (by decide) (by decide)⟩

/-- C2 counterexample: a record whose `full_name` and `summary` are the
empty string passes validation — pydantic checks presence of a `str`
field, not non-emptiness, and the model declares no validator for the
scalar fields. -/
theorem empty_scalars_accepted :
    emptyScalarsInput.full_name = some ""
    ∧ emptyScalarsInput.summary = some ""
    ∧ cvAccepts emptyScalarsInput = true := by
  refine ⟨rfl, rfl, by decide⟩

/-- C2 (amended): a `MissingRequiredField` ("missing") error is reported
for a field exactly when that required field is absent from the input —
exactly the absent ones and no others; an absent required scalar makes
validation fail.  A scalar that is present but empty is not reported. -/
theorem missing_required_fields_exact :
    (∀ (i : CVInput) (f : String),
      FieldErr.missing f ∈ cvErrors i ↔
        (f = "full_name" ∧ i.full_name = none)
          ∨ (f = "email" ∧ i.email = none)
          ∨ (f = "summary" ∧ i.summary = none)
          ∨ (f = "skills" ∧ i.skills = none)
          ∨ (f = "experience" ∧ i.experience = none)
          ∨ (f = "education" ∧ i.education = none))
    ∧ (∀ i : CVInput,
        i.full_name = none ∨ i.email = none ∨ i.summary = none →
        cvAccepts i = false) := by
  constructor
  · intro i f
    simp only [cvErrors, List.mem_append, mem_checkRequiredStr_iff,
      mem_checkUrl_iff, mem_checkSkills_iff, mem_checkExperience_iff,
      mem_checkEducation_iff, FieldErr.missing.injEq]
    constructor
    · rintro (((((((⟨h1, h2⟩ | ⟨h1, h2⟩) | ⟨s, _, _, h⟩) | ⟨s, _, _, h⟩)
        | ⟨h1, h2⟩) | (⟨h1, h2⟩ | ⟨_, h⟩)) | (⟨h1, h2⟩ | ⟨_, _, _, h⟩))
        | (⟨h1, h2⟩ | ⟨_, _, _, h⟩)) <;> simp_all
    · rintro (⟨h1, h2⟩ | ⟨h1, h2⟩ | ⟨h1, h2⟩ | ⟨h1, h2⟩ | ⟨h1, h2⟩ | ⟨h1, h2⟩)
        <;> subst h1 <;> simp [h2]
  · intro i h
    rcases h with h | h | h
    · exact cvAccepts_eq_false_of_mem i _ (by
        simp only [cvErrors, List.mem_append, mem_checkRequiredStr_iff]
        exact Or.inl (Or.inl (Or.inl (Or.inl (Or.inl (Or.inl (Or.inl ⟨h, rfl⟩)))))))
    · exact cvAccepts_eq_false_of_mem i _ (by
        simp only [cvErrors, List.mem_append, mem_checkRequiredStr_iff]
        exact Or.inl (Or.inl (Or.inl (Or.inl (Or.inl (Or.inl (Or.inr ⟨h, rfl⟩)))))))
    · exact cvAccepts_eq_false_of_mem i _ (by
        simp only [cvErrors, List.mem_append, mem_checkRequiredStr_iff]
        exact Or.inl (Or.inl (Or.inl (Or.inr ⟨h, rfl⟩))))

theorem missing_required_fields_exact_witness :
    cvAccepts { adaInput with full_name := none } = false :=
  missing_required_fields_exact.2 { adaInput with full_name := none }
    (Or.inl rfl)

/-- C7: a record whose `skills` field is present but empty fails the check
and carries the `ValueError "Skills list cannot be empty"` for `skills`; a
record with a non-empty skills list never carries that error. -/
theorem empty_skill_list_rejected :
    (∀ i : CVInput, i.skills = some [] →
      cvAccepts i = false
        ∧ FieldErr.valueError "skills" "Skills list cannot be empty" ∈ cvErrors i)
    ∧ (∀ (i : CVInput) (l : List String), i.skills = some l → l ≠ [] →
      FieldErr.valueError "skills" "Skills list cannot be empty" ∉ cvErrors i) := by
  constructor
  · intro i h
    have hmem : FieldErr.valueError "skills" "Skills list cannot be empty" ∈ cvErrors i := by
      have hs : FieldErr.valueError "skills" "Skills list cannot be empty"
          ∈ checkSkills i.skills := by
        rw [h]; simp [checkSkills, validate_skills]
      simp only [cvErrors, List.mem_append]
      exact Or.inl (Or.inl (Or.inr hs))
    exact ⟨cvAccepts_eq_false_of_mem i _ hmem, hmem⟩
  · intro i l hl hne
    simp only [cvErrors, List.mem_append, mem_checkRequiredStr_iff,
      mem_checkUrl_iff, mem_checkSkills_iff, mem_checkExperience_iff,
      mem_checkEducation_iff]
    rintro (((((((⟨_, h⟩ | ⟨_, h⟩) | ⟨s, _, _, h⟩) | ⟨s, _, _, h⟩)
      | ⟨_, h⟩) | (⟨h1, _⟩ | ⟨h1, h2⟩)) | (⟨_, h⟩ | ⟨_, _, _, h⟩))
      | (⟨_, h⟩ | ⟨_, _, _, h⟩)) <;> simp_all

theorem empty_skill_list_rejected_witness :
    cvAccepts { adaInput with skills := some ([] : List String) } = false :=
  (empty_skill_list_rejected.1 { adaInput with skills := some [] } rfl).1

/-- C8: the check is a pure function — two runs on the same record give
identical results — and it is idempotent in the stronger sense that a
record it accepts is returned unchanged and re-validating the returned
record accepts it again with the same outcome. -/
theorem completeness_check_idempotent :
    (∀ i : CVInput, validateCV i = validateCV i ∧ cvErrors i = cvErrors i)
    ∧ (∀ i r : CVInput, validateCV i = .ok r → r = i ∧ validateCV r = .ok r) := by
  constructor
  · exact fun i => ⟨rfl, rfl⟩
  · intro i r h
    unfold validateCV at h ⊢
    by_cases he : (cvErrors i).isEmpty
    · simp [he] at h
      subst h
      simp [he]
    · simp [he] at h

theorem completeness_check_idempotent_witness :
    adaInput = adaInput ∧ validateCV adaInput = .ok adaInput :=
  completeness_check_idempotent.2 adaInput adaInput rfl

/-- C9: validation never inspects the content of `email` — any present
string yields the same error list — and a record that is otherwise
complete is accepted with a value that does not resemble an email
address; no email-format error exists in the error taxonomy. -/
theorem email_format_unchecked :
    (∀ (i : CVInput) (e e' : String),
      cvErrors { i with email := some e } = cvErrors { i with email := some e' })
    ∧ cvAccepts { adaInput with email := some "definitely not an email" } = true := by
  constructor
  · intro i e e'
    simp [cvErrors, checkRequiredStr]
  · decide

/-! Base64, the transport encoding used by `submit`
(`base64.b64encode(...).decode('utf-8')`): standard alphabet with `=`
padding, bytes modelled as `Nat` below 256. -/

/-- The standard base64 alphabet. -/
def base64Chars : List Char :=
  ['A', 'B', 'C', 'D', 'E', 'F', 'G', 'H', 'I', 'J', 'K', 'L', 'M',
   'N', 'O', 'P', 'Q', 'R', 'S', 'T', 'U', 'V', 'W', 'X', 'Y', 'Z',
   'a', 'b', 'c', 'd', 'e', 'f', 'g', 'h', 'i', 'j', 'k', 'l', 'm',
   'n', 'o', 'p', 'q', 'r', 's', 't', 'u', 'v', 'w', 'x', 'y', 'z',
   '0', '1', '2', '3', '4', '5', '6', '7', '8', '9', '+', '/']

/-- The alphabet character of a sextet. -/
def sextetChar (n : Nat) : Char := base64Chars.getD n 'A'

/-- Index of a character in a list, or `none`. -/
def findIdx64 (ch : Char) : List Char → Option Nat
  | [] => none
  | c :: cs => if c == ch then some 0 else (findIdx64 ch cs).map (· + 1)

/-- The sextet of an alphabet character, `none` for a non-alphabet one. -/
def charSextet (ch : Char) : Option Nat := findIdx64 ch base64Chars

/-- base64 encoding of a byte sequence, three bytes to four characters,
with `=` padding for a trailing group of one or two bytes. -/
def base64Encode : List Nat → List Char
  | [] => []
  | [b1] => [sextetChar (b1 / 4), sextetChar (b1 % 4 * 16), '=', '=']
  | [b1, b2] => [sextetChar (b1 / 4), sextetChar (b1 % 4 * 16 + b2 / 16),
      sextetChar (b2 % 16 * 4), '=']
  | b1 :: b2 :: b3 :: rest =>
      sextetChar (b1 / 4) :: sextetChar (b1 % 4 * 16 + b2 / 16)
        :: sextetChar (b2 % 16 * 4 + b3 / 64) :: sextetChar (b3 % 64)
        :: base64Encode rest

/-- base64 decoding, four characters to three bytes, honouring `=`
padding; `none` on any malformed input. -/
def base64Decode : List Char → Option (List Nat)
  | [] => some []
  | c1 :: c2 :: c3 :: c4 :: rest =>
      match charSextet c1, charSextet c2 with
      | some s1, some s2 =>
          if c3 = '=' then
            if c4 = '=' ∧ rest = [] ∧ s2 % 16 = 0 then
              some [s1 * 4 + s2 / 16]
            else none
          else
            match charSextet c3 with
            | some s3 =>
                if c4 = '=' then
                  if rest = [] ∧ s3 % 4 = 0 then
                    some [s1 * 4 + s2 / 16, s2 % 16 * 16 + s3 / 4]
                  else none
                else
                  match charSextet c4, base64Decode rest with
                  | some s4, some bs =>
                      some ((s1 * 4 + s2 / 16) :: (s2 % 16 * 16 + s3 / 4)
                        :: (s3 % 4 * 64 + s4) :: bs)
                  | _, _ => none
            | none => none
      | _, _ => none
  | _ => none

example : base64Encode [77, 97, 110] = ['T', 'W', 'F', 'u'] := by decide

example : base64Decode (base64Encode [37, 80, 68, 70]) = some [37, 80, 68, 70] := by decide

theorem charSextet_sextetChar : ∀ n < 64, charSextet (sextetChar n) = some n := by
  decide

theorem sextetChar_ne_pad : ∀ n < 64, sextetChar n ≠ '=' := by
  decide

theorem base64_roundtrip (bs : List Nat) (h : ∀ b ∈ bs, b < 256) :
    base64Decode (base64Encode bs) = some bs := by
  induction bs using base64Encode.induct with
  | case1 => rfl
  | case2 b1 =>
      have h1 : b1 < 256 := h b1 (by simp)
      have e1 := charSextet_sextetChar (b1 / 4) (by omega)
      have e2 := charSextet_sextetChar (b1 % 4 * 16) (by omega)
      have hx : b1 / 4 * 4 + b1 % 4 * 16 / 16 = b1 := by omega
      simp only [base64Encode, base64Decode, e1, e2]
      rw [if_pos trivial, if_pos ⟨trivial, trivial, by omega⟩, hx]
  | case3 b1 b2 =>
      have h1 : b1 < 256 := h b1 (by simp)
      have h2 : b2 < 256 := h b2 (by simp)
      have e1 := charSextet_sextetChar (b1 / 4) (by omega)
      have e2 := charSextet_sextetChar (b1 % 4 * 16 + b2 / 16) (by omega)
      have e3 := charSextet_sextetChar (b2 % 16 * 4) (by omega)
      have hx : b1 / 4 * 4 + (b1 % 4 * 16 + b2 / 16) / 16 = b1 := by omega
      have hy : (b1 % 4 * 16 + b2 / 16) % 16 * 16 + b2 % 16 * 4 / 4 = b2 := by
        omega
      simp only [base64Encode, base64Decode, e1, e2, e3]
      rw [if_neg (sextetChar_ne_pad _ (by omega)), if_pos trivial,
        if_pos ⟨trivial, by omega⟩, hx, hy]
  | case4 b1 b2 b3 rest ih =>
      have h1 : b1 < 256 := h b1 (by simp)
      have h2 : b2 < 256 := h b2 (by simp)
      have h3 : b3 < 256 := h b3 (by simp)
      have hrest : ∀ b ∈ rest, b < 256 := fun b hb => h b (by simp [hb])
      have e1 := charSextet_sextetChar (b1 / 4) (by omega)
      have e2 := charSextet_sextetChar (b1 % 4 * 16 + b2 / 16) (by omega)
      have e3 := charSextet_sextetChar (b2 % 16 * 4 + b3 / 64) (by omega)
      have e4 := charSextet_sextetChar (b3 % 64) (by omega)
      have hx : b1 / 4 * 4 + (b1 % 4 * 16 + b2 / 16) / 16 = b1 := by omega
      have hy : (b1 % 4 * 16 + b2 / 16) % 16 * 16
          + (b2 % 16 * 4 + b3 / 64) / 4 = b2 := by omega
      have hz : (b2 % 16 * 4 + b3 / 64) % 4 * 64 + b3 % 64 = b3 := by omega
      simp only [base64Encode, base64Decode, e1, e2, e3, e4]
      rw [if_neg (sextetChar_ne_pad _ (by omega)),
        if_neg (sextetChar_ne_pad _ (by omega)), ih hrest]
      simp only [hx, hy, hz]

/-! The `CVForm.submit` pipeline: jinja2 template rendering, xhtml2pdf
conversion, base64 encoding, wrapped in `try/except Exception`. -/

/-- One segment of a jinja2 template: literal text or a variable
reference (placeholder). -/
inductive TemplateSeg where
  | lit (s : String)
  | ref (field : String)
deriving Repr, DecidableEq

/-- A jinja2 template body. -/
abbrev Template := List TemplateSeg

/-- The `form_data` mapping handed to `submit`. -/
abbrev FormData := List (String × String)

/-- jinja2 `Template.render` under the default undefined policy: the
`Environment` in the source is built without `undefined=StrictUndefined`,
so a reference to a name the data does not supply renders as the empty
string instead of raising.  Modelled from jinja2 semantics. -/
def renderTemplate : Template → FormData → String
  | [], _ => ""
  | .lit s :: rest, data => s ++ renderTemplate rest data
  | .ref f :: rest, data => ((data.lookup f).getD "") ++ renderTemplate rest data

/-- The value `pisa.CreatePDF` returns: a status whose `err` field counts
conversion errors, alongside the bytes written to the destination stream
(possibly empty or partial when `err ≠ 0`).  Severe converter faults
raise instead of returning.  Modelled from xhtml2pdf semantics. -/
structure PisaStatus where
  err : Nat
  bytes : List Nat
deriving Repr, DecidableEq

/-- The behaviour of the external stages `submit` calls: each either
returns a value or raises (`Except.error` carries the exception text). -/
structure PipelineEnv where
  /-- `template_env.get_template(template_file)` -/
  getTemplate : Except String Template
  /-- `template.render(form_data)` -/
  render : Template → FormData → Except String String
  /-- `pisa.CreatePDF(BytesIO(...), dest=pdf_stream)` -/
  createPDF : String → Except String PisaStatus

/-- The apostrophe used to quote the HTML attributes of the returned
anchor. -/
def attrQuote : String := String.singleton (Char.ofNat 39)

/-- The MIME type embedded in the data URI of the success payload. -/
def mimeType : String := "application/pdf"

/-- The download filename embedded in the success payload. -/
def pdfFilename : String := "cv.pdf"

/-- The success `output` value of `submit`: a download anchor whose data
URI carries the MIME type and the base64-encoded artifact, and whose
`download` attribute carries the filename. -/
def successOutput (encoded : String) : String :=
  "<a href=" ++ attrQuote ++ "data:" ++ mimeType ++ ";base64," ++ encoded
    ++ attrQuote ++ " download=" ++ attrQuote ++ pdfFilename ++ attrQuote
    ++ ">Download CV</a>"

/-- The `output` value `submit` returns from its `except` branch. -/
def errorOutput (e : String) : String :=
  "An error occurred while generating your CV: " ++ e

/-- The body of `submit`'s `try` block: load the template, render it,
convert to PDF, base64-encode the bytes read back from the stream.  The
`PisaStatus.err` count is never consulted — mirroring the source, which
discards the return value of `pisa.CreatePDF`. -/
def pipelineResult (env : PipelineEnv) (form_data : FormData) :
    Except String String :=
  match env.getTemplate with
  | .error e => .error e
  | .ok t =>
      match env.render t form_data with
      | .error e => .error e
      | .ok rendered =>
          match env.createPDF rendered with
          | .error e => .error e
          | .ok status => .ok (String.mk (base64Encode status.bytes))

/-- `CVForm.submit`: returns a one-key mapping `{"output": ...}` — the
download anchor on success, the apology message if any stage raised. -/
def submit (env : PipelineEnv) (form_data : FormData) :
    List (String × String) :=
  match pipelineResult env form_data with
  | .ok encoded => [("output", successOutput encoded)]
  | .error e => [("output", errorOutput e)]

/-- A pisa status reporting one conversion error and no output written. -/
def pisaFailStatus : PisaStatus := { err := 1, bytes := [] }

/-- An environment whose converter reports failure through its status
object (as xhtml2pdf does for malformed markup) instead of raising. -/
def envPisaFail : PipelineEnv where
  getTemplate := .ok []
  render := fun _ _ => .ok "<html/>"
  createPDF := fun _ => .ok pisaFailStatus

/-- An environment whose template loading raises. -/
def envBoom : PipelineEnv where
  getTemplate := .error "boom"
  render := fun _ _ => .ok ""
  createPDF := fun _ => .ok { err := 0, bytes := [] }

/-- An environment whose converter raises an exception. -/
def envPisaExn : PipelineEnv where
  getTemplate := .ok []
  render := fun _ _ => .ok "<html/>"
  createPDF := fun _ => .error "pisa fault"

/-- An environment whose pipeline succeeds, producing the bytes
`%PDF` (37, 80, 68, 70). -/
def envPdfOk : PipelineEnv where
  getTemplate := .ok []
  render := fun _ _ => .ok "<html/>"
  createPDF := fun _ => .ok { err := 0, bytes := [37, 80, 68, 70] }

theorem base64Encode_ne_nil (bs : List Nat) (h : bs ≠ []) :
    base64Encode bs ≠ [] := by
  match bs with
  | [] => exact absurd rfl h
  | [b1] => simp [base64Encode]
  | [b1, b2] => simp [base64Encode]
  | b1 :: b2 :: b3 :: rest => simp [base64Encode]

/-- C3 counterexample: the converter flags a failure through its returned
status (`err = 1`) and writes no bytes, yet `submit` returns the
success-shaped payload with an empty encoded artifact — the failure is
not reported, because the return value of `pisa.CreatePDF` is discarded. -/
theorem conversion_failure_unflagged :
    envPisaFail.createPDF "<html/>" = .ok pisaFailStatus
    ∧ pisaFailStatus.err = 1
    ∧ pisaFailStatus.bytes = []
    ∧ submit envPisaFail [] = [("output", successOutput "")] := by
  exact ⟨rfl, rfl, rfl, rfl⟩

/-- C3 (amended): a conversion fault that raises an exception is always
reported to the caller as an error message (as is any exception from the
earlier stages); but a conversion failure signalled only through the
converter's returned status object is not checked and yields a
success-shaped payload. -/
theorem conversion_exception_reported
    (env : PipelineEnv) (fd : FormData) (t : Template) (rendered e : String)
    (ht : env.getTemplate = .ok t)
    (hr : env.render t fd = .ok rendered)
    (hc : env.createPDF rendered = .error e) :
    submit env fd = [("output", errorOutput e)] := by
  simp [submit, pipelineResult, ht, hr, hc]

theorem conversion_exception_reported_witness :
    envPisaExn.getTemplate = .ok []
    ∧ envPisaExn.render [] [] = .ok "<html/>"
    ∧ envPisaExn.createPDF "<html/>" = .error "pisa fault"
    ∧ submit envPisaExn [] = [("output", errorOutput "pisa fault")] :=
  ⟨rfl, rfl, rfl,
    conversion_exception_reported envPisaExn [] [] "<html/>" "pisa fault"
      rfl rfl rfl⟩

/-- C5: when every stage succeeds, `submit` delivers the payload built by
`successOutput`, which carries the MIME type `application/pdf` and the
filename `cv.pdf`; the encoded artifact is the base64 text of the PDF
bytes — non-empty whenever the bytes are — and base64 decoding
reconstructs the original bytes. -/
theorem submitted_payload_shape
    (env : PipelineEnv) (fd : FormData) (t : Template)
    (rendered : String) (status : PisaStatus)
    (ht : env.getTemplate = .ok t)
    (hr : env.render t fd = .ok rendered)
    (hc : env.createPDF rendered = .ok status)
    (hbytes : ∀ b ∈ status.bytes, b < 256)
    (hne : status.bytes ≠ []) :
    submit env fd
        = [("output", successOutput (String.mk (base64Encode status.bytes)))]
      ∧ mimeType = "application/pdf"
      ∧ pdfFilename = "cv.pdf"
      ∧ base64Encode status.bytes ≠ []
      ∧ base64Decode (base64Encode status.bytes) = some status.bytes := by
  refine ⟨?_, rfl, rfl, base64Encode_ne_nil _ hne, base64_roundtrip _ hbytes⟩
  simp [submit, pipelineResult, ht, hr, hc]

theorem submitted_payload_shape_witness :
    submit envPdfOk []
        = [("output", successOutput (String.mk (base64Encode [37, 80, 68, 70])))]
      ∧ base64Decode (base64Encode [37, 80, 68, 70]) = some [37, 80, 68, 70] :=
  ⟨(submitted_payload_shape envPdfOk [] [] "<html/>"
      { err := 0, bytes := [37, 80, 68, 70] } rfl rfl rfl (by decide)
      (by decide)).1,
    (submitted_payload_shape envPdfOk [] [] "<html/>"
      { err := 0, bytes := [37, 80, 68, 70] } rfl rfl rfl (by decide)
      (by decide)).2.2.2.2⟩

/-- C6 counterexample: rendering a template that references a field the
data does not provide succeeds — the reference is silently replaced by
the empty string (jinja2 default undefined), and no TemplateBindingError
is raised. -/
theorem missing_field_rendered_silently :
    renderTemplate [.lit "A", .ref "missing_field", .lit "B"] [] = "AB" := by
  rfl

/-- C6 (amended): rendering is total — it never fails — and a reference
to a field the data does not provide contributes the empty string: the
output carries no unresolved placeholder, but the reference is silently
dropped rather than reported as a TemplateBindingError. -/
theorem missing_field_renders_empty
    (pre post : Template) (data : FormData) (f : String)
    (h : data.lookup f = none) :
    renderTemplate (pre ++ .ref f :: post) data
      = renderTemplate pre data ++ renderTemplate post data := by
  induction pre with
  | nil => simp [renderTemplate, h]
  | cons seg rest ih =>
      cases seg with
      | lit s => simp [renderTemplate, ih, String.append_assoc]
      | ref g => simp [renderTemplate, ih, String.append_assoc]

theorem missing_field_renders_empty_witness :
    renderTemplate ([.lit "A"] ++ .ref "ghost" :: [.lit "B"])
        [("full_name", "Ada")]
      = renderTemplate [.lit "A"] [("full_name", "Ada")]
          ++ renderTemplate [.lit "B"] [("full_name", "Ada")] :=
  missing_field_renders_empty [.lit "A"] [.lit "B"]
    [("full_name", "Ada")] "ghost" rfl

/-- C10: `submit` is total at its interface — for every environment
behaviour and every `form_data` it returns a mapping holding exactly the
key `output` — and any exception raised inside the pipeline is caught and
returned as the apology message under `output`. -/
theorem submit_always_outputs :
    (∀ (env : PipelineEnv) (fd : FormData), ∃ s, submit env fd = [("output", s)])
    ∧ (∀ (env : PipelineEnv) (fd : FormData) (e : String),
        pipelineResult env fd = .error e →
        submit env fd = [("output", errorOutput e)]) := by
  constructor
  · intro env fd
    unfold submit
    cases pipelineResult env fd with
    | ok encoded => exact ⟨successOutput encoded, rfl⟩
    | error e => exact ⟨errorOutput e, rfl⟩
  · intro env fd e h
    simp [submit, h]

theorem submit_always_outputs_witness :
    submit envBoom [] = [("output", errorOutput "boom")] :=
  submit_always_outputs.2 envBoom [] "boom" rfl

/-! The form lifecycle.  The state machine itself lives in the external
`CatForm` base class, not in this repository's source file; the source
only configures it (`ask_confirm = True`) and supplies the state hooks
(`submit`, `message_closed`, `message_wait_confirm`,
`message_incomplete`).  It is therefore modelled from the spec (§4.2). -/

/-- Modelled from the spec: the lifecycle states of §4.2
(`COLLECTING → AWAITING_CONFIRMATION → {SUBMITTED, CANCELLED}`). -/
inductive FormState where
  | collecting
  | awaitingConfirmation
  | submitted
  | cancelled
deriving Repr, DecidableEq

/-- A session: the current lifecycle state and the record it owns. -/
structure Session where
  state : FormState
  record : CVInput
deriving Repr, DecidableEq

/-- Modelled from the spec: the inbound signals of §6.  An `update`
carries the record after the turn's partial field map has been merged in
(the merge itself is performed by the surrounding engine). -/
inductive FormEvent where
  | update (r : CVInput)
  | confirm (yes : Bool)
  | cancel
deriving Repr, DecidableEq

/-- The record at form start: every field still absent. -/
def emptyInput : CVInput :=
  { full_name := none, email := none, phone_number := none,
    linkedIn_profile := none, portfolio_website := none, summary := none,
    skills := none, experience := none, education := none }

/-- Modelled from the spec: one lifecycle transition of §4.2.  Returns
the next session and, when the transition enters `SUBMITTED`, the record
the render/convert/encode pipeline runs on.  In `COLLECTING` an update
runs the check and either advances (to confirmation or submission) or
stays; `AWAITING_CONFIRMATION` accepts only confirm signals; a cancel in
any non-terminal state moves to `CANCELLED`; terminal states absorb every
signal. -/
def stepForm (askConfirm : Bool) (s : Session) (e : FormEvent) :
    Session × Option CVInput :=
  match s.state, e with
  | .collecting, .update r =>
      if cvAccepts r then
        if askConfirm then ({ state := .awaitingConfirmation, record := r }, none)
        else ({ state := .submitted, record := r }, some r)
      else ({ state := .collecting, record := r }, none)
  | .collecting, .confirm _ => (s, none)
  | .collecting, .cancel => ({ s with state := .cancelled }, none)
  | .awaitingConfirmation, .confirm true =>
      ({ s with state := .submitted }, some s.record)
  | .awaitingConfirmation, .confirm false =>
      ({ s with state := .collecting }, none)
  | .awaitingConfirmation, .update _ => (s, none)
  | .awaitingConfirmation, .cancel => ({ s with state := .cancelled }, none)
  | .submitted, _ => (s, none)
  | .cancelled, _ => (s, none)

/-- Run a whole session: fold the turn signals through `stepForm`,
collecting every record the pipeline was triggered on. -/
def runForm (askConfirm : Bool) (s : Session) :
    List FormEvent → Session × List CVInput
  | [] => (s, [])
  | e :: es =>
      let step := stepForm askConfirm s e
      let rest := runForm askConfirm step.1 es
      (rest.1, step.2.toList ++ rest.2)

theorem stepForm_terminal (askConfirm : Bool) (s : Session) (e : FormEvent)
    (h : s.state = .submitted ∨ s.state = .cancelled) :
    stepForm askConfirm s e = (s, none) := by
  rcases h with h | h <;> cases e <;> simp [stepForm, h]

theorem runForm_terminal (askConfirm : Bool) (events : List FormEvent)
    (s : Session) (h : s.state = .submitted ∨ s.state = .cancelled) :
    runForm askConfirm s events = (s, []) := by
  induction events with
  | nil => rfl
  | cons e es ih => simp [runForm, stepForm_terminal askConfirm s e h, ih]

theorem runForm_sound (askConfirm : Bool) (events : List FormEvent) :
    ∀ s : Session,
      (s.state = .awaitingConfirmation → cvAccepts s.record = true) →
      (runForm askConfirm s events).2.length ≤ 1
        ∧ ∀ r ∈ (runForm askConfirm s events).2, cvAccepts r = true := by
  induction events with
  | nil => intro s _; simp [runForm]
  | cons e es ih =>
      intro s hinv
      cases hst : s.state with
      | collecting =>
          cases e with
          | update r =>
              by_cases hacc : cvAccepts r = true
              · by_cases hac : askConfirm = true
                · have hs : stepForm askConfirm s (.update r)
                      = ({ state := .awaitingConfirmation, record := r }, none) := by
                    simp [stepForm, hst, hacc, hac]
                  have := ih { state := .awaitingConfirmation, record := r }
                    (fun _ => hacc)
                  simpa [runForm, hs] using this
                · have hac' : askConfirm = false := by simpa using hac
                  have hs : stepForm askConfirm s (.update r)
                      = ({ state := .submitted, record := r }, some r) := by
                    simp [stepForm, hst, hacc, hac']
                  have hrest := runForm_terminal askConfirm es
                    { state := .submitted, record := r } (Or.inl rfl)
                  simp [runForm, hs, hrest, hacc]
              · have hs : stepForm askConfirm s (.update r)
                    = ({ state := .collecting, record := r }, none) := by
                  simp [stepForm, hst, hacc]
                have := ih { state := .collecting, record := r } (by simp)
                simpa [runForm, hs] using this
          | confirm b =>
              have hs : stepForm askConfirm s (.confirm b) = (s, none) := by
                simp [stepForm, hst]
              have := ih s hinv
              simpa [runForm, hs] using this
          | cancel =>
              have hs : stepForm askConfirm s .cancel
                  = ({ s with state := .cancelled }, none) := by
                simp [stepForm, hst]
              have hrest := runForm_terminal askConfirm es
                { s with state := .cancelled } (Or.inr rfl)
              simp [runForm, hs, hrest]
      | awaitingConfirmation =>
          cases e with
          | update r =>
              have hs : stepForm askConfirm s (.update r) = (s, none) := by
                simp [stepForm, hst]
              have := ih s hinv
              simpa [runForm, hs] using this
          | confirm b =>
              cases b with
              | true =>
                  have hs : stepForm askConfirm s (.confirm true)
                      = ({ s with state := .submitted }, some s.record) := by
                    simp [stepForm, hst]
                  have hrest := runForm_terminal askConfirm es
                    { s with state := .submitted } (Or.inl rfl)
                  simp [runForm, hs, hrest, hinv hst]
              | false =>
                  have hs : stepForm askConfirm s (.confirm false)
                      = ({ s with state := .collecting }, none) := by
                    simp [stepForm, hst]
                  have := ih { s with state := .collecting } (by simp)
                  simpa [runForm, hs] using this
          | cancel =>
              have hs : stepForm askConfirm s .cancel
                  = ({ s with state := .cancelled }, none) := by
                simp [stepForm, hst]
              have hrest := runForm_terminal askConfirm es
                { s with state := .cancelled } (Or.inr rfl)
              simp [runForm, hs, hrest]
      | submitted =>
          have := runForm_terminal askConfirm (e :: es) s (Or.inl hst)
          simp [this]
      | cancelled =>
          have := runForm_terminal askConfirm (e :: es) s (Or.inr hst)
          simp [this]

/-- C4: over any whole session — any sequence of turn signals from the
initial `COLLECTING` state with an empty record, for either confirmation
configuration — the render/convert/encode pipeline is triggered at most
once, and every record it is triggered on has passed the completeness
check. -/
theorem pipeline_once_and_validated (askConfirm : Bool)
    (events : List FormEvent) :
    (runForm askConfirm { state := .collecting, record := emptyInput } events).2.length ≤ 1
      ∧ ∀ r ∈ (runForm askConfirm
          { state := .collecting, record := emptyInput } events).2,
        cvAccepts r = true :=
  runForm_sound askConfirm events
    { state := .collecting, record := emptyInput } (by simp)

theorem pipeline_once_and_validated_witness :
    adaInput ∈ (runForm true { state := .collecting, record := emptyInput }
        [.update adaInput, .confirm true]).2
    ∧ cvAccepts adaInput = true :=
  ⟨by decide,
    (pipeline_once_and_validated true [.update adaInput, .confirm true]).2
      adaInput (by decide)⟩

end CVBuilder
